import Mathlib

/-!
Verification development for the Promise/Future/SharedFuture family described
by the repository's specification and exercised by
`Source/UnrealTemplatesGuide/TFuture_TPromise/TFuture_TPromise_Example.cpp`,
together with the TPimplPtr example actor in
`Source/UnrealTemplatesGuide/TPimplPtr/TPimplPtr_Example.cpp`.

The Promise/Future implementation itself (Unreal's `Future.h`:
`TFutureState`, `TPromise`, `TFuture`, `TSharedFuture`) is not part of the
repository sources; only its callers are.  The definitions in the first two
sections are therefore modelled from the specification text (sections 3-5 of
the spec), sequentially: blocking is represented by partiality (`none` means
the call has not returned / is a fatal contract violation, as documented on
each operation), and wall-clock durations are abstracted away.
-/

namespace FutureSpec

/-- Modelled from the spec: `SharedState<T>` (missing engine code, Unreal
`TFutureState`), restricted to the fields the value-transfer claims need:
`value : Optional<T>` (absent until completion) and `complete : bool`.
The continuation slot is modelled separately in the chaining section. -/
structure Cell (T : Type) where
  value : Option T
  complete : Bool
deriving DecidableEq

/-- Modelled from the spec: the state a freshly constructed Promise
allocates — no value, not complete. -/
def Cell.fresh (T : Type) : Cell T :=
  { value := none, complete := false }

/-- Modelled from the spec: `SharedState.complete(value)` (missing engine
code, `TFutureState::EmplaceValue`/`MarkComplete`): asserts
`complete == false` (violation is fatal, modelled as `none`), stores the
value and sets `complete = true`. -/
def Cell.completeWith (c : Cell T) (v : T) : Option (Cell T) :=
  if c.complete then none else some { value := some v, complete := true }

/-- Modelled from the spec: `SharedState.peek()` — an immutable view of
`value` when complete, never mutating the state; backs `Get`.  `none` means
the caller is still blocked (the state is incomplete). -/
def Cell.peek (c : Cell T) : Option T :=
  if c.complete then c.value else none

/-- Modelled from the spec: a ready / timed-out indicator returned by
`wait(timeout)`. -/
inductive WaitStatus where
  | ready
  | timedOut
deriving DecidableEq

/-- Modelled from the spec: a `TFuture` read handle; `attached = false`
means the handle no longer references a state (after consume / then /
next / share, or default construction). The referenced cell is passed
explicitly to each operation, so one completion is visible through every
handle attached to it. -/
structure FutureH where
  attached : Bool
deriving DecidableEq

/-- Modelled from the spec: a default-constructed Future references no
state. -/
def FutureH.defaultConstructed : FutureH :=
  { attached := false }

/-- Modelled from the spec: `Future::is_valid()` — whether this handle
still references a state. -/
def FutureH.isValid (h : FutureH) : Bool :=
  h.attached

/-- Modelled from the spec: a `TSharedFuture` read handle; copyable, each
copy references the same cell. -/
structure SharedH where
  attached : Bool
deriving DecidableEq

/-- Modelled from the spec: `SharedFuture::is_valid()`. -/
def SharedH.isValid (h : SharedH) : Bool :=
  h.attached

/-- Modelled from the spec: `Future::get()` — blocks until complete
(`none` while blocked or on an invalid handle), then returns a repeatable
immutable view of the stored value; the handle is returned unchanged, so
`get` never invalidates. -/
def futureGet (c : Cell T) (h : FutureH) : Option (T × FutureH) :=
  if h.attached then (c.peek).map (fun v => (v, h)) else none

/-- Modelled from the spec: `Future::consume()` — blocks until complete,
moves the value out and leaves this handle invalid; a call on an invalid
handle is a fatal contract violation (`none`). -/
def futureConsume (c : Cell T) (h : FutureH) : Option (T × FutureH) :=
  if h.attached then (c.peek).map (fun v => (v, { attached := false })) else none

/-- Modelled from the spec: `Future::wait(timeout)` — never extracts a
value and never invalidates the handle; returns `ready` if the state is
complete and `timedOut` otherwise.  The numeric timeout only bounds the
wall-clock wait, which the sequential model abstracts away, so the result
ignores it. -/
def futureWaitFor (c : Cell T) (h : FutureH) (_timeoutMs : Nat) : Option (WaitStatus × FutureH) :=
  if h.attached then some (if c.complete then (WaitStatus.ready, h) else (WaitStatus.timedOut, h))
  else none

/-- Modelled from the spec: untimed `Future::wait()` — blocks until the
state is complete; `none` means the call has not returned yet. -/
def futureWait (c : Cell T) (h : FutureH) : Option Unit :=
  if h.attached && c.complete then some () else none

/-- Modelled from the spec: `Future::share()` — wraps the same underlying
state in a copyable SharedFuture handle and invalidates this Future. -/
def futureShare (_c : Cell T) (h : FutureH) : Option (SharedH × FutureH) :=
  if h.attached then some ({ attached := true }, { attached := false }) else none

/-- Modelled from the spec: `SharedFuture::get()` — same contract as
`Future::get`; the handle comes back unchanged and stays valid no matter
how many reads occur. -/
def sharedGet (c : Cell T) (h : SharedH) : Option (T × SharedH) :=
  if h.attached then (c.peek).map (fun v => (v, h)) else none

/-- Modelled from the spec: a `TPromise` write handle; tracks whether it
still references a state and whether its paired Future was already
obtained. -/
structure PromiseH where
  attached : Bool
  futureTaken : Bool
deriving DecidableEq

/-- Modelled from the spec: `Promise::new()` — allocates a fresh
SharedState and the write handle referencing it. -/
def promiseNew (T : Type) : Cell T × PromiseH :=
  (Cell.fresh T, { attached := true, futureTaken := false })

/-- Modelled from the spec: `Promise::get_future()` — returns a Future
referencing the same state; callable at most once (a second call is a
fatal contract violation, `none`). -/
def promiseGetFuture (p : PromiseH) : Option (FutureH × PromiseH) :=
  if p.attached && !p.futureTaken then
    some ({ attached := true }, { p with futureTaken := true })
  else none

/-- Modelled from the spec: `Promise::set_value(v)` — delegates to
`SharedState.complete`; fatal (`none`) if the state was already completed
(double `set_value` through any path). -/
def promiseSetValue (c : Cell T) (p : PromiseH) (v : T) : Option (Cell T × PromiseH) :=
  if p.attached then (c.completeWith v).map (fun c2 => (c2, p)) else none

/-- Modelled from the spec: the state-machine step of the one-shot cell —
the only mutation of a `SharedState` is a successful `complete` call. -/
def CellStep (c c2 : Cell T) : Prop :=
  ∃ v, c.completeWith v = some c2

end FutureSpec

namespace ChainSpec

/-- The value universe of the chaining examples: the `then`/`next` chains
in `TFuture_TPromise_Example.cpp` move `int32`, `FString` and `void`
values through heterogeneously-typed states, modelled by one sum type so
the heap of states stays homogeneous. -/
inductive Val where
  | vInt : Int → Val
  | vStr : String → Val
  | vUnit : Val
deriving DecidableEq

/-- Modelled from the spec: the short-lived Future view of a now-complete
state that a `then` continuation receives; it is always complete, so only
the stored value matters. -/
structure FutView where
  value : Val
deriving DecidableEq

/-- Modelled from the spec: `consume()` on the continuation's view Future
— extracts the stored (present) value. -/
def consumeView (f : FutView) : Val :=
  f.value

/-- Modelled from the spec: a registered continuation (missing engine
code, `TFutureState::SetContinuation`'s stored callback): when its cell
completes with `v` it is invoked with a view of that cell and completes
the `target` cell (the next link's state) with the callback's result.
`label` identifies the callback in the event log. -/
structure Cont where
  label : Nat
  fn : FutView → Val
  target : Nat

/-- Modelled from the spec: one `SharedState` in the chaining model —
value, completion flag, and the zero-or-one registered continuation. -/
structure BCell where
  value : Option Val
  complete : Bool
  cont : Option Cont

/-- The heap of shared states created by a chain; `then`/`next` allocate
fresh states at the end, so a continuation's `target` is always a later
index. -/
def Heap : Type :=
  List BCell

/-- One observable callback invocation: which continuation ran and the
value of the state whose completion triggered it, in execution order. -/
structure Event where
  label : Nat
  arg : Val
deriving DecidableEq

/-- Modelled from the spec: `SharedState.complete(v)` with continuation
chasing (missing engine code, `TFutureState::MarkComplete`): write the
value, set `complete`, clear and then invoke the registered continuation,
which synchronously completes the target state, recursively.  `fuel`
bounds the recursion; chains built by `then`/`next` have strictly
increasing targets, so `heap length` fuel never truncates them. -/
def completeGo : Nat → List BCell → Nat → Val → List BCell × List Event
  | 0, h, _, _ => (h, [])
  | fuel + 1, h, i, v =>
    match h.get? i with
    | none => (h, [])
    | some c =>
      let h2 := h.set i { value := some v, complete := true, cont := none }
      match c.cont with
      | none => (h2, [])
      | some k =>
        let r := completeGo fuel h2 k.target (k.fn { value := v })
        (r.1, { label := k.label, arg := v } :: r.2)

/-- Modelled from the spec: completion of heap cell `i` with `v`,
returning the new heap and the callback invocations that ran before the
completing call returns. -/
def completeCell (h : List BCell) (i : Nat) (v : Val) : List BCell × List Event :=
  completeGo h.length h i v

/-- Modelled from the spec: allocate a fresh Promise/state pair at the end
of the heap, returning the new heap and the state's index. -/
def newPromiseB (h : List BCell) : List BCell × Nat :=
  (h ++ [{ value := none, complete := false, cont := none }], h.length)

/-- Modelled from the spec: `Promise::set_value(v)` in the chaining model
— fatal (`none`) on an invalid handle or an already-complete state,
otherwise completes the state and runs the continuation chain before
returning; the returned events are everything that ran inside the call. -/
def setValueB (h : List BCell) (ph : Option Nat) (v : Val) : Option (List BCell × List Event) :=
  match ph with
  | none => none
  | some i =>
    match h.get? i with
    | none => none
    | some c => if c.complete then none else some (completeCell h i v)

/-- Modelled from the spec: `Future::then(callback)` (missing engine code,
`TFuture::Then`): allocates a fresh result state, registers a
continuation completing it with the callback's result, invalidates this
Future (the returned handle component is `none`), and — when the state is
already complete — runs the callback immediately, before `then` returns.
Result: `(new heap, invalidated original handle, result index, events)`. -/
def thenOp (h : List BCell) (fh : Option Nat) (label : Nat) (fn : FutView → Val) :
    Option (List BCell × Option Nat × Nat × List Event) :=
  match fh with
  | none => none
  | some i =>
    match h.get? i with
    | none => none
    | some c =>
      if c.cont.isSome then none
      else
        let j := h.length
        let h1 := h ++ [{ value := none, complete := false, cont := none }]
        if c.complete then
          match c.value with
          | some v =>
            let r := completeCell h1 j (fn { value := v })
            some (r.1, none, j, { label := label, arg := v } :: r.2)
          | none => none
        else
          some (h1.set i { c with cont := some { label := label, fn := fn, target := j } },
            none, j, [])

/-- Modelled from the spec: `Future::next(callback)` (missing engine code,
`TFuture::Next`, whose `Future.h` source is also quoted verbatim in
`TFuture_TPromise_Example.cpp` lines 344-362): `Then` applied to a wrapper
that consumes the view Future and passes the raw value to the callback. -/
def nextOp (h : List BCell) (fh : Option Nat) (label : Nat) (cb : Val → Val) :
    Option (List BCell × Option Nat × Nat × List Event) :=
  thenOp h fh label (fun self => cb (consumeView self))

/-- Embeds `Example_ThenChaining` (`TFuture_TPromise_Example.cpp` lines 293-319)
generalized over the two `Then` lambdas and the initial value: build
`GetFuture().Then(fn1).Then(fn2)`, call `SetValue x`, and read the final
Future; returns the final `Get()` result and the callback event log. -/
def Example_ThenChaining (fn1 fn2 : FutView → Val) (x : Val) :
    Option (Option Val × List Event) :=
  match thenOp (newPromiseB []).1 (some (newPromiseB []).2) 1 fn1 with
  | none => none
  | some (h1, _, j1, e1) =>
    match thenOp h1 (some j1) 2 fn2 with
    | none => none
    | some (h2, _, j2, e2) =>
      match setValueB h2 (some (newPromiseB []).2) x with
      | none => none
      | some (h3, e3) =>
        match h3.get? j2 with
        | none => none
        | some c => some (if c.complete then c.value else none, e1 ++ e2 ++ e3)

/-- First `Then` lambda of `Example_ThenChaining` (lines 298-304):
consume the int and format `"Number: %d"`. -/
def thenLambda1 : FutView → Val :=
  fun f =>
    match consumeView f with
    | Val.vInt n => Val.vStr ("Number: " ++ toString n)
    | v => v

/-- Second `Then` lambda of `Example_ThenChaining` (lines 306-312):
consume the string and take its length. -/
def thenLambda2 : FutView → Val :=
  fun f =>
    match consumeView f with
    | Val.vStr s => Val.vInt s.length
    | v => v

/-- Embeds `Example_NextChaining` (`TFuture_TPromise_Example.cpp` lines 586-605)
generalized over the two `Next` callbacks and the initial value: build
`GetFuture().Next(cb1).Next(cb2)`, call `SetValue x`, and read the final
Future. -/
def Example_NextChaining (cb1 cb2 : Val → Val) (x : Val) :
    Option (Option Val × List Event) :=
  match nextOp (newPromiseB []).1 (some (newPromiseB []).2) 1 cb1 with
  | none => none
  | some (h1, _, j1, e1) =>
    match nextOp h1 (some j1) 2 cb2 with
    | none => none
    | some (h2, _, j2, e2) =>
      match setValueB h2 (some (newPromiseB []).2) x with
      | none => none
      | some (h3, e3) =>
        match h3.get? j2 with
        | none => none
        | some c => some (if c.complete then c.value else none, e1 ++ e2 ++ e3)

/-- First `Next` callback of `Example_NextChaining` (lines 590-594):
double the received int. -/
def nextLambda1 : Val → Val :=
  fun v =>
    match v with
    | Val.vInt n => Val.vInt (n * 2)
    | w => w

/-- Second `Next` callback of `Example_NextChaining` (lines 595-599):
format `"Result=%d"`. -/
def nextLambda2 : Val → Val :=
  fun v =>
    match v with
    | Val.vInt n => Val.vStr ("Result=" ++ toString n)
    | w => w

end ChainSpec

namespace PimplSpec

/-- Embeds `ATPimplPtr_Example::FImpl` (`TPimplPtr_Example.cpp` lines 20-136):
the hidden implementation state.  `float` fields are modelled as `Float`;
no floating-point arithmetic is proved about them. -/
structure FImpl where
  DisplayName : String
  Counter : Int
  AccumulatedTime : Float
  LastCalculationResult : Float
  bIsInitialized : Bool
  StateHistory : List Float

/-- The default `FImpl` constructor (lines 49-58); `Reserve` only
preallocates, so the history starts empty. -/
def FImpl.defaultConstructed : FImpl :=
  { DisplayName := "DefaultPimplActor", Counter := 0, AccumulatedTime := 0.0,
    LastCalculationResult := 0.0, bIsInitialized := false, StateHistory := [] }

/-- The parameterized `FImpl` constructor (lines 61-70). -/
def FImpl.constructedWith (InName : String) (InInitialCounter : Int) : FImpl :=
  { DisplayName := InName, Counter := InInitialCounter, AccumulatedTime := 0.0,
    LastCalculationResult := 0.0, bIsInitialized := false, StateHistory := [] }

/-- Embeds `FImpl::Initialize` (lines 83-91): on the first call set
`bIsInitialized` and append `0.0` to the history; afterwards do
nothing. -/
def FImpl.Initialize (s : FImpl) : FImpl :=
  if s.bIsInitialized then s
  else { s with bIsInitialized := true, StateHistory := s.StateHistory ++ [0.0] }

/-- Embeds `FImpl::Calculate` (lines 106-111): computes
`Input * (Counter + 1) + Sin(AccumulatedTime)` and stores it in
`LastCalculationResult`; `FMath::Sin` is passed in as `sinF`. -/
def FImpl.Calculate (sinF : Float → Float) (s : FImpl) (Input : Float) : Float × FImpl :=
  let r := Input * Float.ofInt (s.Counter + 1) + sinF s.AccumulatedTime
  (r, { s with LastCalculationResult := r })

/-- Embeds `FImpl::Reset` (lines 114-122): zero the counters and leave a
one-element history. -/
def FImpl.Reset (s : FImpl) : FImpl :=
  { s with
      Counter := 0
      AccumulatedTime := 0.0
      LastCalculationResult := 0.0
      StateHistory := [0.0] }

/-- Embeds `ATPimplPtr_Example` (`TPimplPtr_Example.h/.cpp`): the actor holds a
`TPimplPtr<FImpl>`; `none` models a null implementation pointer. -/
structure ATPimplPtr_Example where
  Impl : Option FImpl

/-- The actor constructor (lines 142-151): `MakePimpl<FImpl>` with name
`"PimplExampleActor"` and counter `0`. -/
def ATPimplPtr_Example.construct : ATPimplPtr_Example :=
  { Impl := some (FImpl.constructedWith "PimplExampleActor" 0) }

/-- Embeds `ATPimplPtr_Example::GetCounter` (lines 219-222): `-1` when `Impl` is
invalid. -/
def ATPimplPtr_Example.GetCounter (a : ATPimplPtr_Example) : Int :=
  match a.Impl with
  | some i => i.Counter
  | none => -1

/-- Embeds `ATPimplPtr_Example::GetActorDisplayName` (lines 200-208):
`"Invalid"` when `Impl.Get()` is null. -/
def ATPimplPtr_Example.GetActorDisplayName (a : ATPimplPtr_Example) : String :=
  match a.Impl with
  | some i => i.DisplayName
  | none => "Invalid"

/-- Embeds `ATPimplPtr_Example::PerformCalculation` (lines 232-241): delegates to
`FImpl::Calculate` when `Impl` is valid, returns `0.0` and leaves the
actor untouched otherwise. -/
def ATPimplPtr_Example.PerformCalculation (sinF : Float → Float)
    (a : ATPimplPtr_Example) (InputValue : Float) : Float × ATPimplPtr_Example :=
  match a.Impl with
  | some i =>
    let r := FImpl.Calculate sinF i InputValue
    (r.1, { Impl := some r.2 })
  | none => (0.0, a)

/-- Embeds `ATPimplPtr_Example::SetActorDisplayName` (lines 191-198): writes the
name only when `Impl` is valid. -/
def ATPimplPtr_Example.SetActorDisplayName (a : ATPimplPtr_Example)
    (NewName : String) : ATPimplPtr_Example :=
  match a.Impl with
  | some i => { Impl := some { i with DisplayName := NewName } }
  | none => a

/-- Embeds `ATPimplPtr_Example::IncrementCounter` (lines 210-217). -/
def ATPimplPtr_Example.IncrementCounter (a : ATPimplPtr_Example) : ATPimplPtr_Example :=
  match a.Impl with
  | some i => { Impl := some { i with Counter := i.Counter + 1 } }
  | none => a

/-- Embeds `ATPimplPtr_Example::ResetState` (lines 224-230). -/
def ATPimplPtr_Example.ResetState (a : ATPimplPtr_Example) : ATPimplPtr_Example :=
  match a.Impl with
  | some i => { Impl := some i.Reset }
  | none => a

/-- Embeds `ATPimplPtr_Example::IsImplValid` (lines 243-248). -/
def ATPimplPtr_Example.IsImplValid (a : ATPimplPtr_Example) : Bool :=
  a.Impl.isSome

end PimplSpec

namespace FutureSpec

/-- Claim C1: for every type `T` and value `x`, after `set_value(x)` on a
fresh Promise/Future pair, `get()` returns `x` and leaves the handle
unchanged (so it is repeatable), `consume()` returns `x` and invalidates
the handle, and a second `consume()` on the now-invalid handle is a
contract violation (models as `none`). -/
theorem c1_set_value_get_consume (T : Type) (x : T) :
    ∀ c1 : Cell T,
      promiseSetValue (promiseNew T).1 (promiseNew T).2 x =
        some (c1, (promiseNew T).2) →
      futureGet c1 { attached := true } = some (x, { attached := true }) ∧
      futureConsume c1 { attached := true } = some (x, { attached := false }) ∧
      FutureH.isValid { attached := false } = false ∧
      futureConsume c1 { attached := false } = none := by
  intro c1 hset
  have hc1 : c1 = { value := some x, complete := true } := by
    simp [promiseSetValue, promiseNew, Cell.fresh, Cell.completeWith] at hset
    exact hset.symm
  subst hc1
  refine ⟨?_, ?_, rfl, ?_⟩ <;>
    simp [futureGet, futureConsume, Cell.peek, FutureH.isValid]

/-- Witness for C1 at `T = Int`, `x = 42`. -/
theorem c1_witness :
    futureGet { value := some (42 : Int), complete := true } { attached := true } =
      some (42, { attached := true }) ∧
    futureConsume { value := some (42 : Int), complete := true } { attached := true } =
      some (42, { attached := false }) := by
  have h := c1_set_value_get_consume Int 42
    { value := some 42, complete := true } (by decide)
  exact ⟨h.1, h.2.1⟩

/-- Claim C4: any number of SharedFuture copies obtained by `share()` from
one Promise's Future all read the value the Promise set: `share` consumes
the Future and yields a valid shared handle, no copy can observe a value
before completion, and after `set_value x` every copy's `get` returns `x`
and hands the same, still-valid handle back, however many reads occur. -/
theorem c4_shared_future_fanout (T : Type) (x : T) (n : Nat) :
    futureShare (promiseNew T).1 { attached := true } =
      some ({ attached := true }, { attached := false }) ∧
    (∀ s ∈ List.replicate n ({ attached := true } : SharedH),
        sharedGet (promiseNew T).1 s = none) ∧
    ∀ c1 : Cell T,
      promiseSetValue (promiseNew T).1 (promiseNew T).2 x =
        some (c1, (promiseNew T).2) →
      ∀ s ∈ List.replicate n ({ attached := true } : SharedH),
        sharedGet c1 s = some (x, s) ∧ s.isValid = true := by
  refine ⟨rfl, ?_, ?_⟩
  · intro s hs
    rw [List.eq_of_mem_replicate hs]
    simp [sharedGet, promiseNew, Cell.fresh, Cell.peek]
  · intro c1 hset s hs
    have hc1 : c1 = { value := some x, complete := true } := by
      simp [promiseSetValue, promiseNew, Cell.fresh, Cell.completeWith] at hset
      exact hset.symm
    subst hc1
    rw [List.eq_of_mem_replicate hs]
    simp [sharedGet, Cell.peek, SharedH.isValid]

/-- Witness for C4 at `T = Int`, `x = 7`, three copies. -/
theorem c4_witness :
    sharedGet { value := some (7 : Int), complete := true } { attached := true } =
      some (7, { attached := true }) := by
  have h := (c4_shared_future_fanout Int 7 3).2.2
    { value := some 7, complete := true } (by decide)
    { attached := true } (by decide)
  exact h.1

/-- Claim C5: the shared state is one-shot — a fresh cell is incomplete,
a successful `complete(v)` requires `complete = false` and yields a
complete cell holding `v`, completing an already-complete cell is fatal,
no state-machine step leaves a complete cell (so `complete` goes
false→true exactly once and never back), and a second `set_value` on the
same Promise after a successful one is fatal. -/
theorem c5_one_shot_state (T : Type) (c c2 : Cell T) (v : T) :
    (Cell.fresh T).complete = false ∧
    (c.completeWith v = some c2 →
      c.complete = false ∧ c2.complete = true ∧ c2.value = some v) ∧
    (c.complete = true → c.completeWith v = none) ∧
    (∀ c3, Relation.ReflTransGen (CellStep (T := T)) c c3 →
      c.complete = true → c3 = c) ∧
    (∀ p p2 c3 w, promiseSetValue c p v = some (c3, p2) →
      promiseSetValue c3 p2 w = none) := by
  refine ⟨rfl, ?_, ?_, ?_, ?_⟩
  · intro hc
    unfold Cell.completeWith at hc
    by_cases h : c.complete
    · simp [h] at hc
    · simp [h] at hc
      exact ⟨by simp [h], by simp [← hc], by simp [← hc]⟩
  · intro hc
    simp [Cell.completeWith, hc]
  · intro c3 hsteps hc
    rcases Relation.ReflTransGen.cases_head hsteps with heq | ⟨cb, hstep, _⟩
    · exact heq.symm
    · rcases hstep with ⟨w, hw⟩
      simp [Cell.completeWith, hc] at hw
  · intro p p2 c3 w hset
    unfold promiseSetValue at hset ⊢
    by_cases hp : p.attached
    · rw [if_pos hp] at hset
      cases hcv : c.completeWith v with
      | none => rw [hcv] at hset; simp at hset
      | some cx =>
          rw [hcv] at hset
          simp at hset
          obtain ⟨hcx, hpp⟩ := hset
          have hcomp : cx.complete = true := by
            unfold Cell.completeWith at hcv
            by_cases hcc : c.complete
            · simp [hcc] at hcv
            · simp [hcc] at hcv
              simp [← hcv]
          subst hcx
          subst hpp
          simp [hp, Cell.completeWith, hcomp]
    · simp [hp] at hset

/-- Witness for C5 at `T = Int`: completing a fresh cell with `1`
succeeds, completing the resulting cell again with `2` is fatal. -/
theorem c5_witness :
    (({ value := none, complete := false } : Cell Int).completeWith 1 =
      some { value := some 1, complete := true }) ∧
    ({ value := some (1 : Int), complete := true } : Cell Int).completeWith 2 = none := by
  refine ⟨by decide, ?_⟩
  exact (c5_one_shot_state Int { value := some 1, complete := true }
    { value := some 1, complete := true } 2).2.2.1 rfl

/-- Claim C8: `wait(timeout)` on a valid handle over an incomplete state
returns the explicit not-ready indicator with the handle unchanged (a
normal outcome, not a fatal error and not an invalidation); on a complete
state it returns ready immediately; the untimed `wait` returns exactly
when the state is complete, and never returns on a fresh (never
`set_value`-d) state. -/
theorem c8_wait_timeout (T : Type) (c : Cell T) (h : FutureH) (t : Nat) :
    (h.attached = true → c.complete = false →
      futureWaitFor c h t = some (WaitStatus.timedOut, h)) ∧
    (h.attached = true → c.complete = true →
      futureWaitFor c h t = some (WaitStatus.ready, h)) ∧
    (futureWait c h = some () ↔ h.attached = true ∧ c.complete = true) ∧
    futureWait (Cell.fresh T) h = none := by
  refine ⟨?_, ?_, ?_, ?_⟩
  · intro ha hc; simp [futureWaitFor, ha, hc]
  · intro ha hc; simp [futureWaitFor, ha, hc]
  · constructor
    · intro hw
      unfold futureWait at hw
      by_cases hb : h.attached && c.complete
      · simpa using hb
      · simp [hb] at hw
    · rintro ⟨ha, hc⟩
      simp [futureWait, ha, hc]
  · simp [futureWait, Cell.fresh]

/-- Witness for C8 at `T = Unit`: a fresh state times out, a completed
state is ready. -/
theorem c8_witness :
    futureWaitFor (Cell.fresh Unit) { attached := true } 5 =
      some (WaitStatus.timedOut, { attached := true }) ∧
    futureWaitFor ({ value := some (), complete := true } : Cell Unit)
      { attached := true } 5 = some (WaitStatus.ready, { attached := true }) := by
  exact ⟨(c8_wait_timeout Unit (Cell.fresh Unit) { attached := true } 5).1 rfl rfl,
    (c8_wait_timeout Unit { value := some (), complete := true }
      { attached := true } 5).2.1 rfl rfl⟩

end FutureSpec

namespace ChainSpec

/-- Claim C2 (amended): for every pair of callbacks and every initial
value, `p.get_future().then(f).then(g)` triggered by `p.set_value(x)`
leaves the final Future holding exactly `g` applied to the view of
`f` applied to the view of `x`, with `f`'s callback invoked strictly
before `g`'s; in the concrete scenario with `x = 12345`, `f` formatting
`"Number: %d"` and `g` taking the string length, the final `get()` equals
13 (the length of `"Number: 12345"`), the first callback seeing `12345`
and the second seeing `"Number: 12345"`. -/
theorem c2_then_chaining (fn1 fn2 : FutView → Val) (x : Val) :
    Example_ThenChaining fn1 fn2 x =
      some (some (fn2 { value := fn1 { value := x } }),
        [{ label := 1, arg := x }, { label := 2, arg := fn1 { value := x } }]) ∧
    Example_ThenChaining thenLambda1 thenLambda2 (Val.vInt 12345) =
      some (some (Val.vInt 13),
        [{ label := 1, arg := Val.vInt 12345 },
         { label := 2, arg := Val.vStr "Number: 12345" }]) := by
  exact ⟨rfl, by decide⟩

/-- Counterexample to Claim C2 as stated: in the concrete scenario the
final `get()` is 13, because `"Number: 12345"` has 13 characters, not the
claimed 14. -/
theorem c2_final_get_is_13_not_14 :
    (Example_ThenChaining thenLambda1 thenLambda2 (Val.vInt 12345)).map Prod.fst =
      some (some (Val.vInt 13)) ∧
    some (some (Val.vInt 13)) ≠ some (some (Val.vInt 14)) := by
  decide

/-- Claim C3: `next(cb)` is observably identical to `then` applied to the
wrapper that consumes the view Future and passes the raw value to `cb`
(same result state, same handle invalidation, same events — the operations
are equal as functions of the heap and handle); in the concrete example,
chaining `next(double)` then `next(format)` after `set_value(21)` yields
`"Result=42"`. -/
theorem c3_next_is_then_with_consume :
    (∀ (h : List BCell) (fh : Option Nat) (lbl : Nat) (cb : Val → Val),
      nextOp h fh lbl cb = thenOp h fh lbl (fun self => cb (consumeView self))) ∧
    Example_NextChaining nextLambda1 nextLambda2 (Val.vInt 21) =
      some (some (Val.vStr "Result=42"),
        [{ label := 1, arg := Val.vInt 21 },
         { label := 2, arg := Val.vInt 42 }]) := by
  exact ⟨fun _ _ _ _ => rfl, by decide⟩

/-- Claim C6: a registered continuation runs exactly once — `then` on an
already-complete state invokes the closure immediately, before returning
(one event, result state already completed); `then` on an incomplete
state stores the closure without invoking it (no events); the later
`set_value` writes the value, invokes the stored closure exactly once
(exactly one event in the returned log), clears it, and completes the
target state before returning. -/
theorem c6_continuation_exactly_once (lbl : Nat) (fn : FutView → Val) (v : Val) :
    thenOp [{ value := some v, complete := true, cont := none }] (some 0) lbl fn =
      some ([{ value := some v, complete := true, cont := none },
             { value := some (fn { value := v }), complete := true, cont := none }],
        none, 1, [{ label := lbl, arg := v }]) ∧
    thenOp [{ value := none, complete := false, cont := none }] (some 0) lbl fn =
      some ([{ value := none, complete := false,
               cont := some { label := lbl, fn := fn, target := 1 } },
             { value := none, complete := false, cont := none }],
        none, 1, []) ∧
    setValueB [{ value := none, complete := false,
                 cont := some { label := lbl, fn := fn, target := 1 } },
               { value := none, complete := false, cont := none }] (some 0) v =
      some ([{ value := some v, complete := true, cont := none },
             { value := some (fn { value := v }), complete := true, cont := none }],
        [{ label := lbl, arg := v }]) := by
  exact ⟨rfl, rfl, rfl⟩

/-- Helper: every successful `then` hands back an invalidated original
handle — the second component of the result is always `none`. -/
theorem thenOp_invalidates_handle (bh bh2 : List BCell) (fh old : Option Nat)
    (lbl j : Nat) (fn : FutView → Val) (evs : List Event)
    (h : thenOp bh fh lbl fn = some (bh2, old, j, evs)) : old = none := by
  cases fh with
  | none => simp [thenOp] at h
  | some i =>
    unfold thenOp at h
    cases hg : bh.get? i with
    | none => simp only [hg] at h; exact absurd h (by simp)
    | some c =>
      simp only [hg] at h
      by_cases hc : c.cont.isSome
      · simp [hc] at h
      · simp only [hc, Bool.false_eq_true, if_false] at h
        by_cases hcc : (c.complete = true)
        · simp only [hcc, if_true] at h
          cases hv : c.value with
          | none => simp only [hv] at h; exact absurd h (by simp)
          | some v =>
            simp only [hv] at h
            simp at h
            exact h.2.1.symm
        · simp only [hcc, if_false] at h
          simp at h
          exact h.2.1.symm

end ChainSpec

namespace FutureSpec

/-- Claim C7: a Future handle's `is_valid()` is false exactly after
consume / then / next / share or default construction, and true
otherwise — a default-constructed handle is invalid; `get_future` yields a
valid handle; `get` returns the same, still-valid handle (it never
invalidates); `wait` returns the handle unchanged; a successful `consume`
returns an invalid handle on which every further operation is a contract
violation; `share` invalidates the Future while the SharedFuture is
valid; and every successful `then`/`next` hands back an invalidated
original handle. -/
theorem c7_is_valid_transitions (T : Type) (c : Cell T) (hh : FutureH) (t : Nat) :
    FutureH.isValid FutureH.defaultConstructed = false ∧
    (∀ f p2, promiseGetFuture { attached := true, futureTaken := false } = some (f, p2) →
      f.isValid = true) ∧
    (∀ r h2, futureGet c hh = some (r, h2) → h2 = hh ∧ hh.isValid = true) ∧
    (∀ st h2, futureWaitFor c hh t = some (st, h2) → h2 = hh) ∧
    (∀ r h2, futureConsume c hh = some (r, h2) → h2.isValid = false ∧
      futureConsume c h2 = none ∧ futureGet c h2 = none ∧ futureShare c h2 = none ∧
      futureWaitFor c h2 t = none) ∧
    (∀ s h2, futureShare c hh = some (s, h2) → h2.isValid = false ∧ s.isValid = true) ∧
    (∀ (bh bh2 : List ChainSpec.BCell) (fh old : Option Nat) (lbl j : Nat)
        (fn : ChainSpec.FutView → ChainSpec.Val) (evs : List ChainSpec.Event),
      ChainSpec.thenOp bh fh lbl fn = some (bh2, old, j, evs) → old = none) ∧
    (∀ (bh bh2 : List ChainSpec.BCell) (fh old : Option Nat) (lbl j : Nat)
        (cb : ChainSpec.Val → ChainSpec.Val) (evs : List ChainSpec.Event),
      ChainSpec.nextOp bh fh lbl cb = some (bh2, old, j, evs) → old = none) := by
  refine ⟨rfl, ?_, ?_, ?_, ?_, ?_, ?_, ?_⟩
  · intro f p2 h
    simp [promiseGetFuture] at h
    simp [← h.1, FutureH.isValid]
  · intro r h2 h
    unfold futureGet at h
    by_cases ha : hh.attached
    · rw [if_pos ha] at h
      cases hp : c.peek with
      | none => rw [hp] at h; simp at h
      | some v =>
        rw [hp] at h
        simp at h
        exact ⟨h.2.symm, by simp [FutureH.isValid, ha]⟩
    · rw [if_neg ha] at h; simp at h
  · intro st h2 h
    unfold futureWaitFor at h
    by_cases ha : hh.attached
    · rw [if_pos ha] at h
      by_cases hc : (c.complete = true) <;> simp [hc] at h <;> exact h.2.symm
    · rw [if_neg ha] at h; simp at h
  · intro r h2 h
    unfold futureConsume at h
    by_cases ha : hh.attached
    · rw [if_pos ha] at h
      cases hp : c.peek with
      | none => rw [hp] at h; simp at h
      | some v =>
        rw [hp] at h
        simp at h
        have h2eq : h2 = { attached := false } := h.2.symm
        subst h2eq
        simp [FutureH.isValid, futureConsume, futureGet, futureShare, futureWaitFor]
    · rw [if_neg ha] at h; simp at h
  · intro s h2 h
    unfold futureShare at h
    by_cases ha : hh.attached
    · rw [if_pos ha] at h
      simp at h
      exact ⟨by simp [← h.2, FutureH.isValid], by simp [← h.1, SharedH.isValid]⟩
    · rw [if_neg ha] at h; simp at h
  · intro bh bh2 fh old lbl j fn evs h
    exact ChainSpec.thenOp_invalidates_handle bh bh2 fh old lbl j fn evs h
  · intro bh bh2 fh old lbl j cb evs h
    exact ChainSpec.thenOp_invalidates_handle bh bh2 fh old lbl j _ evs h

/-- Witness for C7 at `T = Int`: consuming a completed cell through a
valid handle leaves an invalid handle on which `consume` is fatal. -/
theorem c7_witness :
    FutureH.isValid { attached := false } = false ∧
    futureConsume ({ value := some (3 : Int), complete := true }) { attached := false } =
      none := by
  have h := (c7_is_valid_transitions Int { value := some 3, complete := true }
    { attached := true } 0).2.2.2.2.1 3 { attached := false } (by decide)
  exact ⟨h.1, h.2.1⟩

end FutureSpec

namespace PimplSpec

/-- Claim C9: with a null implementation pointer, every public accessor
returns its fixed sentinel without dereferencing — `GetCounter` is `-1`,
`GetActorDisplayName` is `"Invalid"`, `PerformCalculation` is `0.0` for
every input — and every mutating operation leaves the actor unchanged. -/
theorem c9_null_impl_guards (sinF : Float → Float) (x : Float) (nm : String) :
    ATPimplPtr_Example.GetCounter { Impl := none } = -1 ∧
    ATPimplPtr_Example.GetActorDisplayName { Impl := none } = "Invalid" ∧
    ATPimplPtr_Example.PerformCalculation sinF { Impl := none } x =
      (0.0, { Impl := none }) ∧
    ATPimplPtr_Example.SetActorDisplayName { Impl := none } nm = { Impl := none } ∧
    ATPimplPtr_Example.IncrementCounter { Impl := none } = { Impl := none } ∧
    ATPimplPtr_Example.ResetState { Impl := none } = { Impl := none } ∧
    ATPimplPtr_Example.IsImplValid { Impl := none } = false := by
  exact ⟨rfl, rfl, rfl, rfl, rfl, rfl, rfl⟩

/-- Helper: `FImpl::Initialize` is idempotent. -/
theorem FImpl.Initialize_idem (s : FImpl) :
    FImpl.Initialize (FImpl.Initialize s) = FImpl.Initialize s := by
  by_cases h : s.bIsInitialized
  · simp [FImpl.Initialize, h]
  · simp [FImpl.Initialize, h]

/-- Claim C10: `FImpl::Initialize` is idempotent — an uninitialized state
gets `bIsInitialized = true`, exactly one `0.0` appended to
`StateHistory`, and every other field untouched; an initialized state is
left entirely unchanged; and any positive number of calls equals one
call. -/
theorem c10_initialize_idempotent (s : FImpl) :
    (s.bIsInitialized = false →
      (FImpl.Initialize s).bIsInitialized = true ∧
      (FImpl.Initialize s).StateHistory = s.StateHistory ++ [0.0] ∧
      (FImpl.Initialize s).DisplayName = s.DisplayName ∧
      (FImpl.Initialize s).Counter = s.Counter ∧
      (FImpl.Initialize s).AccumulatedTime = s.AccumulatedTime ∧
      (FImpl.Initialize s).LastCalculationResult = s.LastCalculationResult) ∧
    (s.bIsInitialized = true → FImpl.Initialize s = s) ∧
    ∀ n : Nat, FImpl.Initialize^[n + 1] s = FImpl.Initialize s := by
  refine ⟨?_, ?_, ?_⟩
  · intro h
    simp [FImpl.Initialize, h]
  · intro h
    simp [FImpl.Initialize, h]
  · intro n
    induction n with
    | zero => simp
    | succ m ih =>
        rw [Function.iterate_succ_apply', ih, FImpl.Initialize_idem]

/-- Witness for C10 at the default-constructed `FImpl`. -/
theorem c10_witness :
    (FImpl.Initialize FImpl.defaultConstructed).bIsInitialized = true ∧
    (FImpl.Initialize FImpl.defaultConstructed).StateHistory = [0.0] ∧
    FImpl.Initialize (FImpl.Initialize FImpl.defaultConstructed) =
      FImpl.Initialize FImpl.defaultConstructed := by
  have h := c10_initialize_idempotent FImpl.defaultConstructed
  have h1 := h.1 rfl
  exact ⟨h1.1, h1.2.1, by simpa using h.2.2 1⟩

end PimplSpec
